import Mathlib

/-!
Verification of the traefik-maintenance middleware core (`maintenance.go`).

The Go code is shallowly embedded: the file system and the backend round
trip are explicit inputs, mutation of the cache and of the response writer
is explicit state passing, and byte slices are modelled as `String`.
-/

namespace MaintenanceWarden

/-- Raw plugin configuration (`Config` in `maintenance.go`).
Only the fields the middleware core reads are modelled. -/
structure Config where
  maintenanceService : String
  maintenanceFilePath : String
  maintenanceContent : String
  bypassHeader : String
  bypassHeaderValue : String
  enabled : Bool
  statusCode : Nat
  bypassPaths : List String
  bypassFavicon : Bool
  maintenanceTimeout : Nat
  contentType : String
deriving Repr, DecidableEq

/-- `CreateConfig` in `maintenance.go`: the default configuration. -/
def CreateConfig : Config :=
  { maintenanceService := ""
    maintenanceFilePath := ""
    maintenanceContent := ""
    bypassHeader := "X-Maintenance-Bypass"
    bypassHeaderValue := "true"
    enabled := true
    statusCode := 503
    bypassPaths := []
    bypassFavicon := true
    maintenanceTimeout := 10
    contentType := "text/html; charset=utf-8" }

/-- The scheme/host part of a parsed URL (`net/url.URL`), the only parts
the middleware reads (`maintenanceURL.Scheme`, `maintenanceURL.Host`). -/
structure URL where
  scheme : String
  host : String
deriving Repr, DecidableEq

/-- Split a character sequence at the first occurrence of `pat`,
returning the parts before and after it. -/
def splitFirst (pat : List Char) : List Char → Option (List Char × List Char)
  | [] => none
  | c :: rest =>
    if pat.isPrefixOf (c :: rest) then
      some ([], (c :: rest).drop pat.length)
    else
      match splitFirst pat rest with
      | some (pre, post) => some (c :: pre, post)
      | none => none

/-- Model of Go's `url.Parse` restricted to the shapes the middleware
meets: an input of the form `sch://host/...` parses to that scheme and
host; any other input parses (as Go's `url.Parse` almost always does)
to an URL with empty scheme and host, which `New` then rejects. -/
def urlParse (s : String) : Option URL :=
  match splitFirst "://".data s.data with
  | some (sch, rest) => some ⟨⟨sch⟩, ⟨rest.takeWhile (fun c => c ≠ '/')⟩⟩
  | none => some ⟨"", ""⟩

/-- The state of the maintenance file on disk, as seen by the two
system calls `loadMaintenanceFile` issues: `os.Stat` (yielding the
modification time, `none` on error) and `ioutil.ReadFile` (yielding the
bytes, `none` on error). Modification times are modelled as `Nat`. -/
structure FileSys where
  stat : Option Nat
  read : Option String
deriving Repr, DecidableEq

/-- The mutable file-cache fields of `MaintenanceBypass`:
`maintenanceFileContent` (`none` models a nil Go slice) and
`maintenanceFileLastMod` (zero value `0`). -/
structure CacheState where
  content : Option String
  lastMod : Nat
deriving Repr, DecidableEq

/-- The zero-valued cache a freshly constructed `MaintenanceBypass` has. -/
def CacheState.initial : CacheState := ⟨none, 0⟩

/-- `loadMaintenanceFile` in `maintenance.go`, with the disk state `fs`
and the cache `st` explicit.  Returns the cache after the call together
with the error message, `none` on success.
Go source, step by step: stat the file (error → return); if the cached
content is non-nil and the on-disk modification time is not `After` the
cached one, return nil without reading; read the file (error → return);
an empty file is an error; otherwise store content and modification time. -/
def loadMaintenanceFile (fs : FileSys) (st : CacheState) :
    CacheState × Option String :=
  match fs.stat with
  | none => (st, some "error accessing maintenance file")
  | some modTime =>
    if st.content.isSome ∧ ¬ st.lastMod < modTime then
      (st, none)
    else
      match fs.read with
      | none => (st, some "error reading maintenance file")
      | some content =>
        if content.length = 0 then
          (st, some "maintenance file is empty")
        else
          (⟨some content, modTime⟩, none)

/-- An HTTP request as the middleware reads it: the URL path, the header
map, and the mutable target fields the proxy rewrites (`URL.Scheme`,
`URL.Host`, `Host`). -/
structure Request where
  path : String
  headers : List (String × String)
  urlScheme : String
  urlHost : String
  host : String
deriving Repr, DecidableEq

/-- `req.Header.Get(name)`: first value for the name, `""` when absent. -/
def Request.getHeader (req : Request) (name : String) : String :=
  match req.headers.find? (fun kv => kv.1 = name) with
  | some kv => kv.2
  | none => ""

/-- The client-visible effect of the underlying `http.ResponseWriter`:
the header map (`Set` semantics), every status code passed to
`WriteHeader` in order, and the body bytes in order. -/
structure Response where
  headers : List (String × String)
  commits : List Nat
  body : String
deriving Repr, DecidableEq

def Response.empty : Response := ⟨[], [], ""⟩

/-- `rw.Header().Set(k, v)`: replace any existing value for `k`. -/
def Response.setHeader (r : Response) (k v : String) : Response :=
  { r with headers := (r.headers.filter (fun kv => kv.1 ≠ k)) ++ [(k, v)] }

/-- `rw.WriteHeader(code)` on the raw writer: records the commit. -/
def Response.writeHeader (r : Response) (code : Nat) : Response :=
  { r with commits := r.commits ++ [code] }

/-- `rw.Write(b)` on the raw writer: appends to the body. -/
def Response.write (r : Response) (s : String) : Response :=
  { r with body := r.body ++ s }

/-- Go's `http.Error(w, error, code)`: sets plain-text headers, commits
the code and writes the message followed by a newline. -/
def httpError (r : Response) (msg : String) (code : Nat) : Response :=
  (((r.setHeader "Content-Type" "text/plain; charset=utf-8").setHeader
      "X-Content-Type-Options" "nosniff").writeHeader code).write (msg ++ "\n")

/-- `maintenanceResponseWriter` in `maintenance.go`: wraps the underlying
writer with the configured status code and a `headerSet` flag. -/
structure MaintWriter where
  statusCode : Nat
  headerSet : Bool
deriving Repr, DecidableEq

/-- `(*maintenanceResponseWriter).WriteHeader`: on the first call commit
the configured status code to the underlying writer (the argument is
discarded); afterwards do nothing. -/
def MaintWriter.writeHeader (w : MaintWriter) (r : Response) (_code : Nat) :
    MaintWriter × Response :=
  if ¬ w.headerSet then
    ({ w with headerSet := true }, r.writeHeader w.statusCode)
  else
    (w, r)

/-- `(*maintenanceResponseWriter).Write`: ensure the header is committed
(via its own `WriteHeader`), then write through. -/
def MaintWriter.write (w : MaintWriter) (r : Response) (s : String) :
    MaintWriter × Response :=
  let wr := if ¬ w.headerSet then w.writeHeader r w.statusCode else (w, r)
  (wr.1, wr.2.write s)

/-- The immutable fields of a constructed `MaintenanceBypass` middleware
(the mutable cache fields live in `CacheState`). -/
structure Middleware where
  maintenanceService : Option URL
  maintenanceFilePath : String
  maintenanceContent : String
  bypassHeader : String
  bypassHeaderValue : String
  enabled : Bool
  statusCode : Nat
  bypassPaths : List String
  bypassFavicon : Bool
  timeout : Nat
  contentType : String
deriving Repr, DecidableEq

/-- `New` in `maintenance.go`, with the disk state explicit.  Returns the
constructed middleware and its initial cache, or the error message.
Go source: default the status code (503 when 0) and content type; build
the instance; then, in order: a non-empty file path is loaded eagerly
(failure fails construction); else non-empty inline content is accepted
as-is; else a non-empty service URL is parsed and validated and the
timeout defaulted (10 when 0); else construction fails. -/
def New (cfg : Config) (fs : FileSys) :
    Except String (Middleware × CacheState) :=
  let statusCode := if cfg.statusCode = 0 then 503 else cfg.statusCode
  let contentType :=
    if cfg.contentType = "" then "text/html; charset=utf-8" else cfg.contentType
  let m : Middleware :=
    { maintenanceService := none
      maintenanceFilePath := cfg.maintenanceFilePath
      maintenanceContent := cfg.maintenanceContent
      bypassHeader := cfg.bypassHeader
      bypassHeaderValue := cfg.bypassHeaderValue
      enabled := cfg.enabled
      statusCode := statusCode
      bypassPaths := cfg.bypassPaths
      bypassFavicon := cfg.bypassFavicon
      timeout := 0
      contentType := contentType }
  if cfg.maintenanceFilePath ≠ "" then
    match loadMaintenanceFile fs CacheState.initial with
    | (_, some err) => .error ("failed to load maintenance file: " ++ err)
    | (st, none) => .ok (m, st)
  else if cfg.maintenanceContent ≠ "" then
    .ok (m, CacheState.initial)
  else if cfg.maintenanceService ≠ "" then
    match urlParse cfg.maintenanceService with
    | none => .error "invalid maintenance service URL"
    | some u =>
      if u.scheme = "" ∨ u.host = "" then
        .error "maintenance service URL must include scheme and host"
      else
        let timeout := if cfg.maintenanceTimeout = 0 then 10 else cfg.maintenanceTimeout
        .ok ({ m with maintenanceService := some u, timeout := timeout },
             CacheState.initial)
  else
    .error "either maintenanceService, maintenanceFilePath, or maintenanceContent must be specified"

/-- `serveMaintenanceFile` in `maintenance.go`: try to reload, and on
failure answer `http.Error` with a generic body (plus the maintenance
header); on success commit the configured status code and write the
cached bytes, with the file-mode header set. -/
def serveMaintenanceFile (m : Middleware) (fs : FileSys) (st : CacheState)
    (r : Response) : CacheState × Response :=
  match loadMaintenanceFile fs st with
  | (st, some _err) =>
    let r := r.setHeader "X-Maintenance-Mode" "true"
    (st, httpError r "Service Temporarily Unavailable" m.statusCode)
  | (st, none) =>
    let content := st.content.getD ""
    let r := ((r.setHeader "Content-Type" m.contentType).setHeader
        "Cache-Control" "no-cache, no-store, must-revalidate").setHeader
        "X-Maintenance-Mode" "true"
    (st, (r.writeHeader m.statusCode).write content)

/-- `serveMaintenanceContent` in `maintenance.go`: headers, configured
status code, then the literal configured string. -/
def serveMaintenanceContent (m : Middleware) (r : Response) : Response :=
  let r := ((r.setHeader "Content-Type" m.contentType).setHeader
      "Cache-Control" "no-cache, no-store, must-revalidate").setHeader
      "X-Maintenance-Mode" "true"
  (r.writeHeader m.statusCode).write m.maintenanceContent

/-- The outcome of the round trip the reverse proxy makes to the
maintenance backend: status code and body on success, `none` when the
transport fails (unreachable, timeout, protocol error). -/
def Backend := Option (Nat × String)

/-- `proxyToMaintenanceService` in `maintenance.go`: wrap the writer in a
`maintenanceResponseWriter`; clone the request and point the clone at the
backend; on a backend response the proxy commits the backend's status
code (overridden by the wrapper) and streams the body; on transport error
the `ErrorHandler` sets the maintenance header, commits the configured
code and writes a generic body.  Returns the response together with the
caller's request object as it stands after the call. -/
def proxyToMaintenanceService (m : Middleware) (backend : Backend)
    (r : Response) (req : Request) : Response × Request :=
  let w : MaintWriter := ⟨m.statusCode, false⟩
  let svc := m.maintenanceService.getD ⟨"", ""⟩
  -- req.Clone: an independent deep copy (URL included); the clone's
  -- target fields are rewritten, the original is left alone.
  let _proxyReq : Request :=
    { req with urlHost := svc.host, urlScheme := svc.scheme, host := svc.host }
  match backend with
  | some (code, body) =>
    let wr := w.writeHeader r code
    let wr := wr.1.write wr.2 body
    (wr.2, req)
  | none =>
    let r := r.setHeader "X-Maintenance-Mode" "true"
    let wr := w.writeHeader r m.statusCode
    let wr := wr.1.write wr.2 "Service temporarily unavailable"
    (wr.2, req)

/-- Which collaborator a request handling invoked. -/
inductive Call where
  | next
  | serveFile
  | serveContent
  | proxyRemote
deriving Repr, DecidableEq

/-- The observable effect of one `ServeHTTP` run: the calls made, the
cache afterwards, the maintenance response (`none` when the next handler
owned the response), and the caller's request object afterwards. -/
structure ServeResult where
  calls : List Call
  cache : CacheState
  response : Option Response
  req : Request
deriving Repr, DecidableEq

/-- `ServeHTTP` in `maintenance.go`.  Go source, in order: disabled →
next; favicon bypass → next; any bypass-path prefix → next; bypass
header value match → next; otherwise set `Retry-After` and
`X-Maintenance-Mode`, then serve from the file, the inline content, or
the proxy — the first source configured wins. -/
def ServeHTTP (m : Middleware) (fs : FileSys) (backend : Backend)
    (st : CacheState) (req : Request) : ServeResult :=
  if ¬ m.enabled then
    ⟨[.next], st, none, req⟩
  else if m.bypassFavicon ∧ "/favicon.ico".data.isSuffixOf req.path.data then
    ⟨[.next], st, none, req⟩
  else if m.bypassPaths.any (fun p => p.data.isPrefixOf req.path.data) then
    ⟨[.next], st, none, req⟩
  else if req.getHeader m.bypassHeader = m.bypassHeaderValue then
    ⟨[.next], st, none, req⟩
  else
    let r := (Response.empty.setHeader "Retry-After" "3600").setHeader
        "X-Maintenance-Mode" "true"
    if m.maintenanceFilePath ≠ "" then
      let sr := serveMaintenanceFile m fs st r
      ⟨[.serveFile], sr.1, some sr.2, req⟩
    else if m.maintenanceContent ≠ "" then
      ⟨[.serveContent], st, some (serveMaintenanceContent m r), req⟩
    else
      let pr := proxyToMaintenanceService m backend r req
      ⟨[.proxyRemote], st, some pr.1, pr.2⟩

/-- Reference bypass decision, written from the spec's §4.3
`shouldBypass(config, request)`: rules evaluated in order — disabled;
favicon; path prefix; header equality — first true short-circuits. -/
def shouldBypass (m : Middleware) (req : Request) : Bool :=
  if ¬ m.enabled then true
  else if m.bypassFavicon ∧ "/favicon.ico".data.isSuffixOf req.path.data then true
  else if m.bypassPaths.any (fun p => p.data.isPrefixOf req.path.data) then true
  else if req.getHeader m.bypassHeader = m.bypassHeaderValue then true
  else false

/-- One call a client of the wrapped writer can make. -/
inductive WOp where
  | writeHeader (code : Nat)
  | write (s : String)
deriving Repr, DecidableEq

/-- Run a sequence of calls against a `maintenanceResponseWriter`. -/
def runWriter : MaintWriter → Response → List WOp → MaintWriter × Response
  | w, r, [] => (w, r)
  | w, r, .writeHeader c :: ops =>
    let wr := w.writeHeader r c
    runWriter wr.1 wr.2 ops
  | w, r, .write s :: ops =>
    let wr := w.write r s
    runWriter wr.1 wr.2 ops

/-- The concatenation, in order, of the payloads of the `write` calls. -/
def writesOf : List WOp → String
  | [] => ""
  | .writeHeader _ :: ops => writesOf ops
  | .write s :: ops => s ++ writesOf ops

/-- Whether construction succeeded. -/
def exceptOk (e : Except String (Middleware × CacheState)) : Bool :=
  match e with
  | .ok _ => true
  | .error _ => false

/-! Theorems -/

/-- Once the header is committed, further calls never commit again and
writes append in order. -/
theorem runWriter_headerSet (S : Nat) (r : Response) (ops : List WOp) :
    runWriter ⟨S, true⟩ r ops = (⟨S, true⟩, { r with body := r.body ++ writesOf ops }) := by
  induction ops generalizing r with
  | nil => simp [runWriter, writesOf]
  | cons op ops ih =>
    cases op with
    | writeHeader c =>
      simp [runWriter, MaintWriter.writeHeader, writesOf, ih]
    | write s =>
      simp [runWriter, MaintWriter.write, MaintWriter.writeHeader, Response.write,
        writesOf, ih, String.append_assoc]

/-- C5: for every sequence of `WriteHeader` and `Write` calls on a
`maintenanceResponseWriter` configured with status code `S`, the
underlying writer receives exactly one status commit, equal to `S`,
triggered by the first call of either kind; later `WriteHeader` calls do
not change the status while `Write` calls keep appending body bytes in
order. -/
theorem maintWriter_commits_once (S : Nat) (ops : List WOp) (hne : ops ≠ []) :
    (runWriter ⟨S, false⟩ Response.empty ops).2.commits = [S] ∧
    (runWriter ⟨S, false⟩ Response.empty ops).2.body = writesOf ops := by
  cases ops with
  | nil => exact absurd rfl hne
  | cons op ops =>
    cases op with
    | writeHeader c =>
      simp [runWriter, MaintWriter.writeHeader, Response.writeHeader, Response.empty,
        runWriter_headerSet, writesOf, String.empty_append]
    | write s =>
      simp [runWriter, MaintWriter.write, MaintWriter.writeHeader, Response.writeHeader,
        Response.write, Response.empty, runWriter_headerSet, writesOf, String.empty_append]

/-- C5 witness: a concrete run — explicit `WriteHeader 200` then two
writes — commits only `503` and concatenates the two bodies. -/
theorem maintWriter_commits_once_witness :
    (runWriter ⟨503, false⟩ Response.empty
        [WOp.writeHeader 200, WOp.write "ab", WOp.write "cd"]).2.commits = [503] ∧
    (runWriter ⟨503, false⟩ Response.empty
        [WOp.writeHeader 200, WOp.write "ab", WOp.write "cd"]).2.body =
      writesOf [WOp.writeHeader 200, WOp.write "ab", WOp.write "cd"] :=
  maintWriter_commits_once 503 [WOp.writeHeader 200, WOp.write "ab", WOp.write "cd"]
    (by decide)

/-- C8: reload is idempotent — with a successful load cached and an
on-disk modification time not after the cached one, a new load returns
success with cache untouched, whatever the read outcome would be (so the
file is not re-read). -/
theorem load_idempotent (st : CacheState) (c : String) (t : Nat) (rd : Option String)
    (hc : st.content = some c) (ht : ¬ st.lastMod < t) :
    loadMaintenanceFile ⟨some t, rd⟩ st = (st, none) := by
  simp [loadMaintenanceFile, hc, ht]

/-- C8 witness: concrete cache at modification time 5, disk time 5 and an
unreadable file — load still succeeds and changes nothing. -/
theorem load_idempotent_witness :
    loadMaintenanceFile ⟨some 5, none⟩ ⟨some "<html>ok</html>", 5⟩ =
      (⟨some "<html>ok</html>", 5⟩, none) :=
  load_idempotent ⟨some "<html>ok</html>", 5⟩ "<html>ok</html>" 5 none rfl (by decide)

/-- A failing load leaves the cache untouched (helper shared by the
serving lemmas). -/
theorem loadMaintenanceFile_fail_eq (fs : FileSys) (st : CacheState)
    (herr : (loadMaintenanceFile fs st).2.isSome = true) :
    (loadMaintenanceFile fs st).1 = st := by
  revert herr
  unfold loadMaintenanceFile
  split
  · simp
  · split
    · simp
    · split
      · simp
      · split
        · simp
        · simp

/-- C9: load is atomic on failure — whenever `loadMaintenanceFile`
reports an error (stat failure, read failure, or an empty file), the
cached content and the cached modification timestamp are exactly what
they were before the call. -/
theorem load_atomic_on_failure (fs : FileSys) (st : CacheState)
    (herr : (loadMaintenanceFile fs st).2.isSome = true) :
    (loadMaintenanceFile fs st).1 = st :=
  loadMaintenanceFile_fail_eq fs st herr

/-- C9 witness: a stat failure on a populated cache leaves the cache as
it was. -/
theorem load_atomic_on_failure_witness :
    (loadMaintenanceFile ⟨none, none⟩ ⟨some "<html>ok</html>", 3⟩).1 =
      ⟨some "<html>ok</html>", 3⟩ :=
  load_atomic_on_failure ⟨none, none⟩ ⟨some "<html>ok</html>", 3⟩ rfl

/-- C6: every run of `ServeHTTP` invokes exactly one of the next handler
and the maintenance response path (file, inline or remote branch),
exactly once, never both. -/
theorem serveHTTP_exactly_one_call (m : Middleware) (fs : FileSys) (backend : Backend)
    (st : CacheState) (req : Request) :
    ((ServeHTTP m fs backend st req).calls.count Call.next) +
      (((ServeHTTP m fs backend st req).calls.count Call.serveFile) +
        ((ServeHTTP m fs backend st req).calls.count Call.serveContent) +
        ((ServeHTTP m fs backend st req).calls.count Call.proxyRemote)) = 1 := by
  unfold ServeHTTP
  split_ifs <;> simp [List.count_cons]

/-- C4: the pass-through decision of `ServeHTTP` coincides with the
spec's ordered `shouldBypass` reference function, and any request whose
path extends a configured bypass prefix passes through. -/
theorem serveHTTP_bypass_correct (m : Middleware) (fs : FileSys) (backend : Backend)
    (st : CacheState) (req : Request) :
    ((ServeHTTP m fs backend st req).calls = [Call.next] ↔ shouldBypass m req = true) ∧
    (∀ p, p ∈ m.bypassPaths → p.data.isPrefixOf req.path.data = true →
      (ServeHTTP m fs backend st req).calls = [Call.next]) := by
  constructor
  · unfold ServeHTTP shouldBypass
    split_ifs <;> simp
  · intro p hp hpre
    have hany : m.bypassPaths.any (fun q => q.data.isPrefixOf req.path.data) = true :=
      List.any_eq_true.mpr ⟨p, hp, hpre⟩
    unfold ServeHTTP
    split_ifs <;> simp_all

/-- C4 witness: with `bypassPaths := ["/health"]` a request to
`/health/live` passes through even though maintenance is enabled. -/
theorem serveHTTP_bypass_correct_witness :
    (ServeHTTP
      ⟨none, "", "<html>down</html>", "X-Maintenance-Bypass", "true", true, 503,
        ["/health"], true, 0, "text/html; charset=utf-8"⟩
      ⟨none, none⟩ none CacheState.initial
      ⟨"/health/live", [], "http", "example.com", "example.com"⟩).calls = [Call.next] :=
  (serveHTTP_bypass_correct _ ⟨none, none⟩ none CacheState.initial _).2
    "/health" (by decide) (by decide)

/-- In both branches of `serveMaintenanceFile` exactly the configured
status code is committed. -/
theorem serveMaintenanceFile_commits (m : Middleware) (fs : FileSys) (st : CacheState)
    (r : Response) (hr : r.commits = []) :
    (serveMaintenanceFile m fs st r).2.commits = [m.statusCode] := by
  rcases hload : loadMaintenanceFile fs st with ⟨st', e⟩
  cases e <;>
    simp [serveMaintenanceFile, hload, httpError, Response.setHeader,
      Response.writeHeader, Response.write, hr]

/-- `serveMaintenanceContent` commits exactly the configured status code. -/
theorem serveMaintenanceContent_commits (m : Middleware) (r : Response)
    (hr : r.commits = []) :
    (serveMaintenanceContent m r).commits = [m.statusCode] := by
  simp [serveMaintenanceContent, Response.setHeader, Response.writeHeader,
    Response.write, hr]

/-- The proxy path commits exactly the configured status code, whatever
the backend answered — including a 200 — and on transport errors. -/
theorem proxy_commits (m : Middleware) (backend : Backend) (r : Response)
    (req : Request) (hr : r.commits = []) :
    (proxyToMaintenanceService m backend r req).1.commits = [m.statusCode] := by
  cases backend <;>
    simp [proxyToMaintenanceService, MaintWriter.writeHeader, MaintWriter.write,
      Response.setHeader, Response.writeHeader, Response.write, hr]

/-- C3: whenever no bypass rule fires, the status code committed to the
client is exactly the configured one, in all three content modes, even
when the backend answers 200 or the file branch fails. -/
theorem serveHTTP_status_code (m : Middleware) (fs : FileSys) (backend : Backend)
    (st : CacheState) (req : Request) (hb : shouldBypass m req = false) :
    (ServeHTTP m fs backend st req).response.map Response.commits =
      some [m.statusCode] := by
  have hr : ((Response.empty.setHeader "Retry-After" "3600").setHeader
      "X-Maintenance-Mode" "true").commits = [] := by
    simp [Response.empty, Response.setHeader]
  unfold shouldBypass at hb
  unfold ServeHTTP
  split_ifs at hb ⊢ <;> simp_all
  · exact serveMaintenanceFile_commits m fs st _ hr
  · exact serveMaintenanceContent_commits m _ hr
  · exact proxy_commits m backend _ req hr

/-- C3 witness: inline mode, no bypass header — the client sees 503. -/
theorem serveHTTP_status_code_witness :
    (ServeHTTP
      ⟨none, "", "<html>down</html>", "X-Maintenance-Bypass", "true", true, 503,
        [], true, 0, "text/html; charset=utf-8"⟩
      ⟨none, none⟩ none CacheState.initial
      ⟨"/", [], "http", "example.com", "example.com"⟩).response.map Response.commits =
      some [503] :=
  serveHTTP_status_code _ ⟨none, none⟩ none CacheState.initial _ (by decide)

/-- C7: proxying never mutates the caller's request — the request object,
and in particular its URL scheme, URL host and Host field, are the same
after the call; `ServeHTTP` preserves the caller's request in all
branches. -/
theorem proxy_preserves_request (m : Middleware) (fs : FileSys) (backend : Backend)
    (st : CacheState) (r : Response) (req : Request) :
    (proxyToMaintenanceService m backend r req).2 = req ∧
    (proxyToMaintenanceService m backend r req).2.urlScheme = req.urlScheme ∧
    (proxyToMaintenanceService m backend r req).2.urlHost = req.urlHost ∧
    (proxyToMaintenanceService m backend r req).2.host = req.host ∧
    (ServeHTTP m fs backend st req).req = req := by
  refine ⟨?_, ?_, ?_, ?_, ?_⟩ <;>
    first
    | (cases backend <;> rfl)
    | (unfold ServeHTTP
       split_ifs <;> first | rfl | (cases backend <;> rfl))

/-- When the reload fails, `serveMaintenanceFile` answers the generic
`http.Error` body and leaves the cache as it was. -/
theorem serveMaintenanceFile_fail (m : Middleware) (fs : FileSys) (st : CacheState)
    (r : Response) (h : (loadMaintenanceFile fs st).2.isSome = true)
    (hbody : r.body = "") :
    (serveMaintenanceFile m fs st r).2.body = "Service Temporarily Unavailable\n" ∧
    (serveMaintenanceFile m fs st r).1 = st := by
  have hpre := loadMaintenanceFile_fail_eq fs st h
  rcases hl : loadMaintenanceFile fs st with ⟨st', e⟩
  rw [hl] at h hpre
  cases e with
  | none => simp at h
  | some err =>
    simp only at hpre
    subst hpre
    simp [serveMaintenanceFile, hl, httpError, Response.setHeader,
      Response.writeHeader, Response.write, hbody]

/-- When the reload succeeds, `serveMaintenanceFile` serves exactly the
cached bytes left by the load. -/
theorem serveMaintenanceFile_ok (m : Middleware) (fs : FileSys) (st : CacheState)
    (r : Response) (h : (loadMaintenanceFile fs st).2 = none) (hbody : r.body = "") :
    (serveMaintenanceFile m fs st r).2.body =
      ((loadMaintenanceFile fs st).1.content.getD "") ∧
    (serveMaintenanceFile m fs st r).1 = (loadMaintenanceFile fs st).1 := by
  rcases hl : loadMaintenanceFile fs st with ⟨st', e⟩
  rw [hl] at h
  cases e with
  | some err => simp at h
  | none =>
    simp [serveMaintenanceFile, hl, Response.setHeader, Response.writeHeader,
      Response.write, hbody, String.empty_append]

/-- C1 counterexample: file mode after a successful load of
`<html>ok</html>` at modification time 5; the file is then emptied on
disk (modification time 6).  The next request is served the generic
error body, not the cached content. -/
theorem serveFile_cached_body_counterexample :
    (ServeHTTP
        ⟨none, "/m.html", "", "X-Maintenance-Bypass", "true", true, 503, [], true, 0,
          "text/html; charset=utf-8"⟩
        ⟨some 6, some ""⟩ none ⟨some "<html>ok</html>", 5⟩
        ⟨"/", [], "http", "example.com", "example.com"⟩).response.map Response.body =
      some "Service Temporarily Unavailable\n" ∧
    ¬ (ServeHTTP
        ⟨none, "/m.html", "", "X-Maintenance-Bypass", "true", true, 503, [], true, 0,
          "text/html; charset=utf-8"⟩
        ⟨some 6, some ""⟩ none ⟨some "<html>ok</html>", 5⟩
        ⟨"/", [], "http", "example.com", "example.com"⟩).response.map Response.body =
      some "<html>ok</html>" := by
  constructor
  · rfl
  · decide

/-- C1 amended: in file mode with no bypass, a reload failure (file
deleted, unreadable, or read back empty) yields the generic
`Service Temporarily Unavailable` body while the previously cached
content and timestamp are retained unchanged in the cache; the cached
bytes are served only when the reload is skipped or succeeds. -/
theorem serveFile_after_reload_failure (m : Middleware) (fs : FileSys)
    (backend : Backend) (st : CacheState) (req : Request)
    (hb : shouldBypass m req = false) (hf : m.maintenanceFilePath ≠ "") :
    ((loadMaintenanceFile fs st).2.isSome = true →
      (ServeHTTP m fs backend st req).response.map Response.body =
        some "Service Temporarily Unavailable\n" ∧
      (ServeHTTP m fs backend st req).cache = st) ∧
    ((loadMaintenanceFile fs st).2 = none →
      (ServeHTTP m fs backend st req).response.map Response.body =
        some ((loadMaintenanceFile fs st).1.content.getD "") ∧
      (ServeHTTP m fs backend st req).cache = (loadMaintenanceFile fs st).1) := by
  have hbody : ((Response.empty.setHeader "Retry-After" "3600").setHeader
      "X-Maintenance-Mode" "true").body = "" := by
    simp [Response.empty, Response.setHeader]
  unfold shouldBypass at hb
  unfold ServeHTTP
  split_ifs at hb ⊢
  simp_all
  constructor
  · intro h
    have hmain := serveMaintenanceFile_fail m fs st _ h hbody
    simp [hmain.1, hmain.2]
  · intro h
    have hmain := serveMaintenanceFile_ok m fs st _ h hbody
    simp [hmain.1, hmain.2]

/-- C1 amended witness: the counterexample state, through the amended
theorem — generic body, cache retained. -/
theorem serveFile_after_reload_failure_witness :
    (ServeHTTP
        ⟨none, "/m.html", "", "X-Maintenance-Bypass", "true", true, 503, [], true, 0,
          "text/html; charset=utf-8"⟩
        ⟨some 6, some ""⟩ none ⟨some "<html>ok</html>", 5⟩
        ⟨"/", [], "http", "example.com", "example.com"⟩).response.map Response.body =
      some "Service Temporarily Unavailable\n" ∧
    (ServeHTTP
        ⟨none, "/m.html", "", "X-Maintenance-Bypass", "true", true, 503, [], true, 0,
          "text/html; charset=utf-8"⟩
        ⟨some 6, some ""⟩ none ⟨some "<html>ok</html>", 5⟩
        ⟨"/", [], "http", "example.com", "example.com"⟩).cache =
      ⟨some "<html>ok</html>", 5⟩ :=
  (serveFile_after_reload_failure _ ⟨some 6, some ""⟩ none ⟨some "<html>ok</html>", 5⟩
    ⟨"/", [], "http", "example.com", "example.com"⟩ (by decide) (by decide)).1 rfl

/-- C2 counterexample: both inline content and a remote service are
configured non-empty, yet `New` succeeds (the claim says construction
must fail when more than one source is given). -/
theorem new_multiple_sources_counterexample :
    exceptOk (New
      ⟨"http://ms.example", "", "<html>down</html>", "X-Maintenance-Bypass", "true",
        true, 503, [], true, 10, "text/html; charset=utf-8"⟩
      ⟨none, none⟩) = true := by
  rfl

/-- C2 amended: construction fails with the "must be specified" error
when none of the three sources is given; when more than one is given it
does not fail on that account — the highest-precedence source is used
(file first, then inline content, then the remote service). -/
theorem new_source_selection (cfg : Config) (fs : FileSys) :
    (cfg.maintenanceFilePath = "" → cfg.maintenanceContent = "" →
      cfg.maintenanceService = "" →
      New cfg fs = .error
        "either maintenanceService, maintenanceFilePath, or maintenanceContent must be specified") ∧
    (cfg.maintenanceFilePath = "" → cfg.maintenanceContent ≠ "" →
      exceptOk (New cfg fs) = true) ∧
    (cfg.maintenanceFilePath ≠ "" →
      (exceptOk (New cfg fs) = true ↔
        (loadMaintenanceFile fs CacheState.initial).2 = none)) := by
  refine ⟨?_, ?_, ?_⟩
  · intro h1 h2 h3
    simp [New, h1, h2, h3]
  · intro h1 h2
    simp [New, exceptOk, h1, h2]
  · intro h1
    rcases hl : loadMaintenanceFile fs CacheState.initial with ⟨st', e⟩
    cases e <;> simp [New, exceptOk, h1, hl]

/-- C2 amended witness: the two-source configuration of the
counterexample goes through the inline-content branch and succeeds. -/
theorem new_source_selection_witness :
    exceptOk (New
      ⟨"http://ms.example", "", "<html>down</html>", "X-Maintenance-Bypass", "true",
        true, 503, [], true, 10, "text/html; charset=utf-8"⟩
      ⟨some 3, some "<html>f</html>"⟩) = true :=
  (new_source_selection
    ⟨"http://ms.example", "", "<html>down</html>", "X-Maintenance-Bypass", "true",
      true, 503, [], true, 10, "text/html; charset=utf-8"⟩
    ⟨some 3, some "<html>f</html>"⟩).2.1 rfl (by decide)

/-- C10: content-source precedence — at construction the file path is
validated first (inline content next, accepted without validation even
when a service is also set), and per request the file branch is chosen
over the inline branch, which is chosen over the remote branch; with a
file configured the served body is the file cache's bytes, not the
inline string. -/
theorem content_source_precedence (cfg : Config) (m : Middleware) (fs : FileSys)
    (backend : Backend) (st : CacheState) (req : Request) :
    (cfg.maintenanceFilePath ≠ "" →
      (exceptOk (New cfg fs) = true ↔
        (loadMaintenanceFile fs CacheState.initial).2 = none)) ∧
    (cfg.maintenanceFilePath = "" → cfg.maintenanceContent ≠ "" →
      exceptOk (New cfg fs) = true) ∧
    (shouldBypass m req = false →
      (m.maintenanceFilePath ≠ "" →
        (ServeHTTP m fs backend st req).calls = [Call.serveFile] ∧
        ((loadMaintenanceFile fs st).2 = none →
          (ServeHTTP m fs backend st req).response.map Response.body =
            some ((loadMaintenanceFile fs st).1.content.getD ""))) ∧
      (m.maintenanceFilePath = "" → m.maintenanceContent ≠ "" →
        (ServeHTTP m fs backend st req).calls = [Call.serveContent] ∧
        (ServeHTTP m fs backend st req).response.map Response.body =
          some m.maintenanceContent) ∧
      (m.maintenanceFilePath = "" → m.maintenanceContent = "" →
        (ServeHTTP m fs backend st req).calls = [Call.proxyRemote])) := by
  have hbody : ((Response.empty.setHeader "Retry-After" "3600").setHeader
      "X-Maintenance-Mode" "true").body = "" := by
    simp [Response.empty, Response.setHeader]
  refine ⟨?_, ?_, ?_⟩
  · intro h1
    rcases hl : loadMaintenanceFile fs CacheState.initial with ⟨st', e⟩
    cases e <;> simp [New, exceptOk, h1, hl]
  · intro h1 h2
    simp [New, exceptOk, h1, h2]
  · intro hb
    unfold shouldBypass at hb
    unfold ServeHTTP
    split_ifs at hb ⊢ <;> simp_all
    · intro h
      have hmain := serveMaintenanceFile_ok m fs st _ h hbody
      simp [hmain.1]
    · exact String.empty_append m.maintenanceContent

/-- C10 witness: a middleware with both a file and inline content
configured serves the cached file bytes, ignoring the inline string. -/
theorem content_source_precedence_witness :
    (ServeHTTP
        ⟨none, "/m.html", "<b>inline</b>", "X-Maintenance-Bypass", "true", true, 503,
          [], true, 0, "text/html; charset=utf-8"⟩
        ⟨some 5, some "<html>file</html>"⟩ none ⟨some "<html>file</html>", 5⟩
        ⟨"/", [], "http", "example.com", "example.com"⟩).calls = [Call.serveFile] ∧
    (ServeHTTP
        ⟨none, "/m.html", "<b>inline</b>", "X-Maintenance-Bypass", "true", true, 503,
          [], true, 0, "text/html; charset=utf-8"⟩
        ⟨some 5, some "<html>file</html>"⟩ none ⟨some "<html>file</html>", 5⟩
        ⟨"/", [], "http", "example.com", "example.com"⟩).response.map Response.body =
      some "<html>file</html>" := by
  have h := ((content_source_precedence
      ⟨"", "", "", "", "", true, 0, [], true, 0, ""⟩
      ⟨none, "/m.html", "<b>inline</b>", "X-Maintenance-Bypass", "true", true, 503,
        [], true, 0, "text/html; charset=utf-8"⟩
      ⟨some 5, some "<html>file</html>"⟩ none ⟨some "<html>file</html>", 5⟩
      ⟨"/", [], "http", "example.com", "example.com"⟩).2.2 (by decide)).1 (by decide)
  exact ⟨h.1, (h.2 rfl).trans (by decide)⟩

end MaintenanceWarden
